import Mathlib

/-!
Shallow embedding of the note-companion mobile upload pipeline.

This file embeds the file-processing pipeline of the repository
(`prepareFile`, `uploadFile`, `processFile`, `pollForResults`,
`handleFileProcess`) as executable Lean definitions and proves
properties of them.

JavaScript strings are modelled as `List Char` (`JStr`), so that the
string operations the source uses (`split`, `toLowerCase`, `includes`,
suffix tests via regexes, regex `replace`) can be defined by structural
recursion and reasoned about by induction.

The source file holds two concatenated variants of the
trigger/poller pair; both are modelled (`processFile` with retries for
the first variant, `processFile2` without; `pollForResults1` for the
numeric-id variant, `pollForResults2` for the string-id variant).
-/

/-- JavaScript strings are modelled as lists of characters. -/
abbrev JStr := List Char

/-- Coerce a Lean string literal to the `JStr` model. -/
def jstr (s : String) : JStr := s.toList

/-- ASCII lower-casing of one character, as done by
`String.prototype.toLowerCase` on ASCII input (the only inputs the
pipeline's case-insensitive tests care about). -/
def lowerChar (c : Char) : Char :=
  match c with
  | 'A' => 'a' | 'B' => 'b' | 'C' => 'c' | 'D' => 'd' | 'E' => 'e'
  | 'F' => 'f' | 'G' => 'g' | 'H' => 'h' | 'I' => 'i' | 'J' => 'j'
  | 'K' => 'k' | 'L' => 'l' | 'M' => 'm' | 'N' => 'n' | 'O' => 'o'
  | 'P' => 'p' | 'Q' => 'q' | 'R' => 'r' | 'S' => 's' | 'T' => 't'
  | 'U' => 'u' | 'V' => 'v' | 'W' => 'w' | 'X' => 'x' | 'Y' => 'y'
  | 'Z' => 'z' | c => c

/-- Model of `s.toLowerCase()`. -/
def jlower (s : JStr) : JStr := s.map lowerChar

/-- Model of `s.split(sep)` for a one-character separator: JavaScript `split`
always returns a non-empty array; `"".split('.')` is `[""]`. -/
def jsplit (sep : Char) : JStr → List JStr
  | [] => [[]]
  | c :: rest =>
    let r := jsplit sep rest
    if c = sep then [] :: r
    else
      match r with
      | h :: t => (c :: h) :: t
      | [] => [[c]]

/-- Last element of a split result (`parts[parts.length - 1]`, also
`parts.pop()` on the never-empty result of `split`). -/
def jlastD (l : List JStr) : JStr := l.getLastD []

/-- Model of `hay.includes(needle)` (substring containment). -/
def jincludes (needle : JStr) : JStr → Bool
  | [] => needle.isEmpty
  | h@(_ :: t) => needle.isPrefixOf h || jincludes needle t

/-- JavaScript truthiness of an optional string: `undefined` and the
empty string are falsy. -/
def jsTruthy : Option JStr → Bool
  | none => false
  | some s => !s.isEmpty

/-- Model of `a || b` where `a` is an optional (possibly empty, hence falsy)
string and `b` the fallback. -/
def jsOr (a : Option JStr) (b : JStr) : JStr :=
  match a with
  | none => b
  | some s => if s.isEmpty then b else s

/-- Model of `a || b` for two plain strings (empty string is falsy). -/
def jsOrS (a b : JStr) : JStr := if a.isEmpty then b else a

/-- Decimal rendering of `Date.now()` into the generated filename. -/
def natStr (n : Nat) : JStr := (Nat.repr n).toList

/-- The `SharedFile` input descriptor (source lines 7-12). -/
structure SharedFile where
  uri : JStr
  mimeType : Option JStr := none
  name : Option JStr := none
  text : Option JStr := none
deriving DecidableEq, Repr

/-- Model of `file.uri.split('.')` followed by taking the last part and
lower-casing it (the `fileExtension` local of `prepareFile`). -/
def extOf (uri : JStr) : JStr := jlower (jlastD (jsplit '.' uri))

/-- Model of `file.mimeType?.split('/')[1]` — the MIME subtype if the declared
MIME type exists and has a second `/`-separated component. -/
def subtypeOf (m : Option JStr) : Option JStr :=
  m.bind fun s => (jsplit '/' s).get? 1

/-- The extension token of the synthesized filename:
`file.mimeType?.split('/')[1] || fileExtension || 'file'`
(source line 40). -/
def extToken (f : SharedFile) : JStr :=
  jsOr (subtypeOf f.mimeType) (jsOrS (extOf f.uri) (jstr "file"))

/-- Filename resolution of `prepareFile` (source line 40). -/
def fileNameOf (f : SharedFile) (now : Nat) : JStr :=
  jsOr f.name (jstr "shared-" ++ natStr now ++ jstr "." ++ extToken f)

/-- The extension→MIME table used when no MIME type is declared
(source lines 44-65). -/
def inferMimeFromExt (ext : JStr) : JStr :=
  if ext = jstr "pdf" then jstr "application/pdf"
  else if ext = jstr "jpg" ∨ ext = jstr "jpeg" then jstr "image/jpeg"
  else if ext = jstr "png" then jstr "image/png"
  else if ext = jstr "webp" then jstr "image/webp"
  else if ext = jstr "heic" then jstr "image/heic"
  else jstr "application/octet-stream"

/-- MIME resolution step 1: use the declared type when truthy, else
infer from the path extension (source lines 43-65). -/
def mimeStep1 (f : SharedFile) : JStr :=
  match f.mimeType with
  | some m => if m.isEmpty then inferMimeFromExt (extOf f.uri) else m
  | none => inferMimeFromExt (extOf f.uri)

/-- MIME resolution step 2: `mimeType.toLowerCase().includes('pdf')`
normalizes to `application/pdf` (source lines 68-70). -/
def mimeStep2 (f : SharedFile) : JStr :=
  let m := mimeStep1 f
  if jincludes (jstr "pdf") (jlower m) then jstr "application/pdf" else m

/-- The `\.(jpg|jpeg|png|gif|webp|heic)$/i` test on the uri
(source line 73). -/
def hasImageExt (uri : JStr) : Bool :=
  [jstr ".jpg", jstr ".jpeg", jstr ".png", jstr ".gif", jstr ".webp",
   jstr ".heic"].any fun suf => suf.isSuffixOf (jlower uri)

/-- The extension→image-MIME switch of the mismatch fix
(source lines 77-94); extensions outside the six cases leave the MIME
unchanged (`none`). -/
def imageExtMime (ext : JStr) : Option JStr :=
  if ext = jstr "jpg" ∨ ext = jstr "jpeg" then some (jstr "image/jpeg")
  else if ext = jstr "png" then some (jstr "image/png")
  else if ext = jstr "gif" then some (jstr "image/gif")
  else if ext = jstr "webp" then some (jstr "image/webp")
  else if ext = jstr "heic" then some (jstr "image/heic")
  else none

/-- Full MIME resolution of `prepareFile` (source lines 43-96):
steps 1-2 and then the image-extension mismatch fix. -/
def prepareMime (f : SharedFile) : JStr :=
  let m := mimeStep2 f
  if hasImageExt f.uri ∧ ¬((jstr "image/").isPrefixOf m) then
    let ext := extOf f.uri
    if ext.isEmpty then m
    else
      match imageExtMime ext with
      | some im => im
      | none => m
  else m

/-- The `FileSystem.cacheDirectory` staging prefix; its concrete value
is irrelevant to the pipeline's logic. -/
def cacheDirectory : JStr := jstr "cache:/"

/-- Result of `prepareFile`. -/
structure PreparedFile where
  fileName : JStr
  mimeType : JStr
  fileUri : JStr
deriving DecidableEq, Repr

/-- Model of `prepareFile` (source lines 32-125): filename, MIME type and
resolved location.  The Android/default platform branch is modelled
(`fileUri = file.uri` for file payloads); the iOS-only existence check
is an environment query and not part of the resolution logic. -/
def prepareFile (f : SharedFile) (now : Nat) : PreparedFile :=
  { fileName := fileNameOf f now
    mimeType := prepareMime f
    fileUri :=
      if jsTruthy f.text then cacheDirectory ++ fileNameOf f now else f.uri }

example : extOf (jstr "file:///tmp/a.txt") = jstr "txt" := by decide
example : prepareMime ⟨jstr "file:///tmp/a.txt", none, none, some (jstr "hello")⟩ =
    jstr "application/octet-stream" := by decide
example : prepareMime ⟨jstr "doc.PdF", none, none, none⟩ = jstr "application/pdf" := by decide
example : prepareMime ⟨jstr "a.PNG", some (jstr "application/octet-stream"), none, none⟩ =
    jstr "image/png" := by decide
example : fileNameOf ⟨jstr "", none, none, none⟩ 5 = jstr "shared-5.file" := by decide
example : fileNameOf ⟨jstr "x.y", some (jstr "image/jpeg"), none, none⟩ 5 =
    jstr "shared-5.jpeg" := by decide

/-! ## Regex machinery for the duplicate-reference cleanup

The orchestrator's post-processing (source lines 740-761) builds two
regexes from the (regex-escaped, hence literal) filename:
`new RegExp('!\\[.*?\\]\\(.*?' + F + '.*?\\)', 'g')` and
`new RegExp('!\\[\\[.*?' + F + '.*?\\]\\]', 'g')`, tests the second and
replaces matches of the first with the empty string.  Both patterns are
sequences of literals and lazy dot-stars, so they are modelled by a
small backtracking matcher over exactly that shape.  `escapeRegExp`
(source lines 795-797) makes the filename literal, which is what the
`litStr` item implements. -/

/-- One item of the patterns used by the cleanup: a literal character,
a literal string (the escaped filename), or a lazy `.*?`. -/
inductive RItem where
  | lit (c : Char)
  | litStr (s : JStr)
  | lazyDots
deriving DecidableEq, Repr

/-- Dot (`.`) in a JavaScript regex matches anything but a line terminator. -/
def jsDot (c : Char) : Bool :=
  !(c = '\n' || c = '\r' || c = ' ' || c = ' ')

/-- Backtracking matcher: `matchItemsGo fuel ps s` attempts to match
the item sequence `ps` at the start of `s`, returning the remainder of
`s` after the match.  Lazy stars try the continuation first and only
then consume one dot-matching character, which is exactly the
JavaScript engine's preference order for `.*?`.  Every recursive call
decreases `ps.length + s.length`, so fuel `ps.length + s.length + 1`
never runs out. -/
def matchItemsGo : Nat → List RItem → JStr → Option JStr
  | 0, _, _ => none
  | _ + 1, [], s => some s
  | _ + 1, .lit _ :: _, [] => none
  | fuel + 1, .lit c :: ps, x :: s =>
    if x = c then matchItemsGo fuel ps s else none
  | fuel + 1, .litStr t :: ps, s =>
    if t.isPrefixOf s then matchItemsGo fuel ps (s.drop t.length) else none
  | fuel + 1, .lazyDots :: ps, s =>
    match matchItemsGo fuel ps s with
    | some r => some r
    | none =>
      match s with
      | [] => none
      | x :: s' =>
        if jsDot x then matchItemsGo fuel (.lazyDots :: ps) s' else none

/-- Match an item sequence at the start of `s`. -/
def matchItems (ps : List RItem) (s : JStr) : Option JStr :=
  matchItemsGo (ps.length + s.length + 1) ps s

/-- Model of `pattern.test(s)`: does the pattern match at some position? -/
def testPat (ps : List RItem) : JStr → Bool
  | [] => (matchItems ps []).isSome
  | s@(_ :: rest) => (matchItems ps s).isSome || testPat ps rest

/-- Scan step of `s.replace(pattern, '')` with the `g` flag: drop each
leftmost match, continue after it.  (The guard on the remainder length
only rules out empty matches, which none of the cleanup's patterns can
produce since they start with a literal.)  The scan position advances
at every step, so fuel `s.length + 1` never runs out. -/
def replaceAllPatGo : Nat → List RItem → JStr → JStr
  | 0, _, _ => []
  | _ + 1, _, [] => []
  | fuel + 1, ps, s@(c :: rest) =>
    match matchItems ps s with
    | some rem =>
      if rem.length < s.length then replaceAllPatGo fuel ps rem
      else c :: replaceAllPatGo fuel ps rest
    | none => c :: replaceAllPatGo fuel ps rest

/-- Model of `s.replace(pattern, '')` with the `g` flag. -/
def replaceAllPat (ps : List RItem) (s : JStr) : JStr :=
  replaceAllPatGo (s.length + 1) ps s

/-- Pattern `!\[.*?\]\(.*?F.*?\)` — standard markdown image reference to the
(escaped, hence literal) filename `F` (source line 747). -/
def stdPat (F : JStr) : List RItem :=
  [.lit '!', .lit '[', .lazyDots, .lit ']', .lit '(', .lazyDots,
   .litStr F, .lazyDots, .lit ')']

/-- Pattern `!\[\[.*?F.*?\]\]` — Obsidian wiki-style reference to the literal
filename `F` (source line 750). -/
def wikiPat (F : JStr) : List RItem :=
  [.lit '!', .lit '[', .lit '[', .lazyDots, .litStr F, .lazyDots,
   .lit ']', .lit ']']

/-- Scan step of `s.replace(/\n\n\n+/g, '\n\n')`: each maximal run of
three or more newlines collapses to a single blank line (source line
758).  The position advances at every step, so fuel `s.length + 1`
never runs out. -/
def collapseNLGo : Nat → JStr → JStr
  | 0, _ => []
  | fuel + 1, s =>
    match s with
    | '\n' :: '\n' :: '\n' :: rest =>
      '\n' :: '\n' :: collapseNLGo fuel (rest.dropWhile (· = '\n'))
    | c :: rest => c :: collapseNLGo fuel rest
    | [] => []

/-- Model of `s.replace(/\n\n\n+/g, '\n\n')`. -/
def collapseNL (s : JStr) : JStr := collapseNLGo (s.length + 1) s

/-- Is `c` JavaScript whitespace (the ASCII cases plus NBSP/BOM)? -/
def jsWhitespace (c : Char) : Bool :=
  c = ' ' || c = '\t' || c = '\n' || c = '\r' || c = '\x0b' ||
  c = '\x0c' || c = ' ' || c = '﻿'

/-- Model of `s.trim()`. -/
def trimJs (s : JStr) : JStr :=
  ((s.dropWhile jsWhitespace).reverse.dropWhile jsWhitespace).reverse

/-! ## Pipeline data model -/

/-- Enumeration `UploadStatus` (source line 5): `idle` never occurs inside the
pipeline itself, only as the presentation layer's initial state. -/
inductive UploadStatus where
  | idle | uploading | processing | completed | error
deriving DecidableEq, Repr

/-- A remote file identifier: the service may use numbers or strings
(`fileId?: number | string`). -/
inductive FileId where
  | num (n : Int)
  | str (s : JStr)
deriving DecidableEq, Repr

/-- JavaScript truthiness of a `fileId` value: `0`, `''`, `undefined`
are falsy. -/
def jsTruthyFid : Option FileId → Bool
  | none => false
  | some (.num n) => n ≠ 0
  | some (.str s) => !s.isEmpty

/-- The `text` field of a status response / `UploadResult`: either a
plain string or a structured object (`extractedText`/`visualElements`),
which the cleanup step never touches and is modelled opaquely. -/
inductive JsText where
  | str (s : JStr)
  | obj
deriving DecidableEq, Repr

/-- JavaScript truthiness of an optional `text` value: objects are
always truthy, strings only when non-empty. -/
def jsTruthyText : Option JsText → Bool
  | none => false
  | some (.str s) => !s.isEmpty
  | some .obj => true

/-- Record `UploadResult` (source lines 14-20). -/
structure UploadResult where
  status : UploadStatus
  text : Option JsText := none
  error : Option JStr := none
  fileId : Option FileId := none
  url : Option JStr := none
deriving DecidableEq, Repr

/-- Parsed JSON body of a status-endpoint response
(`{status?, text?, error?, url?}`). -/
structure StatusBody where
  status : Option JStr := none
  text : Option JsText := none
  error : Option JStr := none
  url : Option JStr := none
deriving DecidableEq, Repr

/-- Parsed JSON body of an upload-endpoint response
(`{success, fileId?, status, url?}`, plus the `error` field read from
failure bodies). -/
structure UploadBody where
  success : Bool := false
  fileId : Option FileId := none
  status : JStr := []
  url : Option JStr := none
  error : Option JStr := none
deriving DecidableEq, Repr

/-- Outcome of one `fetch` of the upload endpoint: a network-level
failure carrying the thrown message, or an HTTP response. -/
inductive UploadHttp where
  | net (msg : JStr)
  | http (status : Nat) (body : UploadBody)
deriving DecidableEq, Repr

/-- Outcome of one `fetch` of the process-file endpoint: a network
failure, or an HTTP response whose failure body may carry `error`. -/
inductive TriggerResp where
  | net (msg : JStr)
  | http (status : Nat) (errMsg : Option JStr)
deriving DecidableEq, Repr

/-- Outcome of one `fetch` of the status endpoint. -/
inductive PollResp where
  | net (msg : JStr)
  | http (status : Nat) (body : StatusBody)
deriving DecidableEq, Repr

/-- The remote service, as the oracle of responses a pipeline run
observes: one upload response, then per-attempt trigger responses and
per-attempt status responses. -/
structure Service where
  uploadResp : UploadHttp
  processResp : Nat → TriggerResp
  statusResp : Nat → PollResp

/-- Client-side environment of one run: the `Date.now()` value, the
base64 file reader, and the `API_CONFIG` retry tuning (whose concrete
values live outside this repository's sources and are passed in). -/
structure Client where
  now : Nat
  readBase64 : JStr → JStr
  maxRetries : Nat
  retryDelay : Nat

/-! ## Orchestrator post-processing (duplicate-reference cleanup) -/

/-- The duplicate-image-reference cleanup the orchestrator applies to a
completed result (source lines 740-761): when a wiki-style reference to
the shared file's name is present in the extracted text, standard
markdown references to it are removed and blank-line runs collapsed. -/
def cleanupResult (name : Option JStr) (res : UploadResult) : UploadResult :=
  if res.status = .completed ∧ jsTruthyText res.text then
    let filename :=
      match name with
      | none => []
      | some n =>
        if n.isEmpty then []
        else jsOrS (jlastD (jsplit '/' n)) n
    if filename.isEmpty then res
    else
      match res.text with
      | some (.str s) =>
        if testPat (wikiPat filename) s then
          { res with
            text := some (.str
              (trimJs (collapseNL (replaceAllPat (stdPat filename) s)))) }
        else res
      | _ => res
  else res


/-! ## Upload Transport -/

/-- Record `UploadResponse` as returned by `uploadFile` (source lines 22-27,
plus the `text` field the text fast path adds via `as any`). -/
structure UploadResponse where
  success : Bool
  fileId : Option FileId := none
  status : JStr := []
  url : Option JStr := none
  text : Option JStr := none
deriving DecidableEq, Repr

/-- Model of `uploadFile` (source lines 130-215).  Returns the response or the
thrown error, paired with whether the binary base64-encode path ran
(`FileSystem.readAsStringAsync` was invoked). -/
def uploadFile (svc : Service) (cl : Client) (f : SharedFile) :
    Except JStr UploadResponse × Bool :=
  let p := prepareFile f cl.now
  if (p.mimeType = jstr "text/markdown" ∨ p.mimeType = jstr "text/plain") ∧
      jsTruthy f.text then
    (.ok { success := true
           fileId := some (.str (jstr "text-" ++ natStr cl.now))
           status := jstr "processed"
           text := f.text }, false)
  else
    let _content := cl.readBase64 p.fileUri
    match svc.uploadResp with
    | .net msg => (.error msg, true)
    | .http status body =>
      if 200 ≤ status ∧ status < 300 then
        (.ok { success := body.success, fileId := body.fileId
               status := body.status, url := body.url }, true)
      else
        (.error (jsOr body.error (jstr "Upload failed")), true)

/-! ## Processing Trigger (first variant, with retry/backoff) -/

/-- Trace of one `processFile` run: how many trigger requests were
made, the backoff delays slept between them (in order), and the
final outcome. -/
structure TriggerRun where
  attempts : Nat
  delays : List Nat
  outcome : Except JStr Unit
deriving Repr

/-- Loop body of the first `processFile` (source lines 220-276),
with `fuel = maxRetries - retryCount` and `att` both the number of
requests already made and the current `retryCount` (they advance
together).  On a 2xx it returns; on any failure — retryable 5xx/429,
network error, or a non-2xx that the code's own `catch` recaptures —
it sleeps `retryDelay * 2^retryCount` and retries while retries
remain, else surfaces the last error. -/
def processFileGo (resp : Nat → TriggerResp) (rd : Nat) :
    Nat → Nat → List Nat → TriggerRun
  | 0, att, delays =>
    ⟨att, delays, .error (jstr "Processing failed after maximum retry attempts")⟩
  | fuel + 1, att, delays =>
    match resp att with
    | .net msg =>
      if 0 < fuel then
        processFileGo resp rd fuel (att + 1) (delays ++ [rd * 2 ^ att])
      else ⟨att + 1, delays, .error msg⟩
    | .http status errMsg =>
      if 200 ≤ status ∧ status < 300 then ⟨att + 1, delays, .ok ()⟩
      else if 500 ≤ status ∨ status = 429 then
        if 0 < fuel then
          processFileGo resp rd fuel (att + 1) (delays ++ [rd * 2 ^ att])
        else ⟨att + 1, delays, .error (jsOr errMsg (jstr "Processing failed"))⟩
      else
        if 0 < fuel then
          processFileGo resp rd fuel (att + 1) (delays ++ [rd * 2 ^ att])
        else ⟨att + 1, delays, .error (jsOr errMsg (jstr "Processing failed"))⟩

/-- The first `processFile` (source lines 220-276): retry loop over
the trigger endpoint with exponential backoff. -/
def processFileRun (resp : Nat → TriggerResp) (maxRetries rd : Nat) : TriggerRun :=
  processFileGo resp rd maxRetries 0 []


/-! ## Result Poller, numeric-id variant (source lines 281-347) -/

/-- Loop body of the first `pollForResults` with
`fuel = maxAttempts - attempts`; `q` counts status queries made so
far.  Any non-2xx terminates at once with an error result (no
`fileId` in that object); on a 2xx body, a truthy `error` field wins
over everything, then terminal `status` values; otherwise wait and
poll again. -/
def pollForResults1Go (stat : Nat → PollResp) (fid : FileId) :
    Nat → Nat → UploadResult × Nat
  | 0, q =>
    ({ status := .error, error := some (jstr "Processing timeout")
       fileId := some fid }, q)
  | fuel + 1, q =>
    match stat q with
    | .net msg =>
      ({ status := .error, error := some msg, fileId := some fid }, q + 1)
    | .http status body =>
      if 200 ≤ status ∧ status < 300 then
        if jsTruthy body.error then
          ({ status := .error, error := body.error, fileId := some fid }, q + 1)
        else if body.status = some (jstr "completed") then
          ({ status := .completed, text := body.text, fileId := some fid
             url := body.url }, q + 1)
        else if body.status = some (jstr "error") then
          ({ status := .error, error := body.error, fileId := some fid }, q + 1)
        else pollForResults1Go stat fid fuel (q + 1)
      else
        ({ status := .error
           error := some (jsOr body.error (jstr "Failed to check file status")) }, q + 1)

/-- The first `pollForResults` (source lines 281-347): up to 30
attempts at a fixed 2-second interval. -/
def pollForResults1 (stat : Nat → PollResp) (fid : FileId) : UploadResult × Nat :=
  pollForResults1Go stat fid 30 0

/-! ## Result Poller, string-id variant (source lines 652-711) -/

/-- The JSON body of a terminal status response, returned directly by
the second `pollForResults` (`return result`); its `status` string is
`completed` or `error` under the guard that returns it. -/
def resultOfBody (b : StatusBody) : UploadResult :=
  { status := if b.status = some (jstr "completed") then .completed else .error
    text := b.text
    error := b.error
    url := b.url }

/-- Loop body of the second `pollForResults` with
`fuel = maxAttempts - attempts`.  A 404 means "wait and retry"; any
other non-2xx throws, but the loop's own `catch` recaptures the throw
and also retries, re-throwing `Max polling attempts reached` once
attempts are exhausted; network errors behave the same way. -/
def pollForResults2Go (stat : Nat → PollResp) :
    Nat → Nat → Except JStr UploadResult × Nat
  | 0, q =>
    (.ok { status := .error
           error := some (jstr "Timed out waiting for processing results") }, q)
  | fuel + 1, q =>
    match stat q with
    | .net _msg =>
      if fuel = 0 then (.error (jstr "Max polling attempts reached"), q + 1)
      else pollForResults2Go stat fuel (q + 1)
    | .http status body =>
      if 200 ≤ status ∧ status < 300 then
        if body.status = some (jstr "completed") ∨ body.status = some (jstr "error") then
          (.ok (resultOfBody body), q + 1)
        else pollForResults2Go stat fuel (q + 1)
      else if status = 404 then pollForResults2Go stat fuel (q + 1)
      else
        if fuel = 0 then (.error (jstr "Max polling attempts reached"), q + 1)
        else pollForResults2Go stat fuel (q + 1)

/-- The second `pollForResults` (source lines 652-711);
`maxAttempts` defaults to 30 at its call site. -/
def pollForResults2 (stat : Nat → PollResp) (maxAttempts : Nat := 30) :
    Except JStr UploadResult × Nat :=
  pollForResults2Go stat maxAttempts 0

/-! ## Pipeline Orchestrator, first variant (source lines 352-402) -/

/-- An `error`-status result carrying a message (the orchestrator's
uniform conversion of stage failures). -/
def errorResult (msg : JStr) : UploadResult :=
  { status := .error, error := some msg }

/-- The first `handleFileProcess` (source lines 352-402): upload,
trigger with retries, poll, then attach the transport's `url` if
present.  The second component records whether the binary
base64-encode upload path ran. -/
def handleFileProcess1 (svc : Service) (cl : Client) (f : SharedFile) :
    UploadResult × Bool :=
  match uploadFile svc cl f with
  | (.error msg, b) => (errorResult msg, b)
  | (.ok up, b) =>
    if jsTruthyFid up.fileId then
      match up.fileId with
      | some fid =>
        match (processFileRun svc.processResp cl.maxRetries cl.retryDelay).outcome with
        | .error msg => (errorResult msg, b)
        | .ok _ =>
          let res := (pollForResults1 svc.statusResp fid).1
          let res := if jsTruthy up.url then { res with url := up.url } else res
          (res, b)
      | none => (errorResult (jstr "No file ID returned from upload"), b)
    else (errorResult (jstr "No file ID returned from upload"), b)

/-! ## Second trigger / orchestrator variant (source lines 622-647,
716-790) -/

/-- Model of `String(uploadData.fileId)`. -/
def fidToStr : FileId → JStr
  | .num n => (toString n).toList
  | .str s => s

/-- The second `processFile` (source lines 622-647): a single trigger
request, no retry; the response's `statusText` is not modelled, so a
non-2xx surfaces the fixed prefix of the thrown message. -/
def processFile2 (resp : TriggerResp) : Except JStr Unit :=
  match resp with
  | .net msg => .error msg
  | .http status _ =>
    if 200 ≤ status ∧ status < 300 then .ok ()
    else .error (jstr "Failed to process file")

/-- The second `handleFileProcess` (source lines 716-790): like the
first, but the id is stringified, the duplicate-reference cleanup runs
on a completed result, and the transport `url` is attached after the
cleanup. -/
def handleFileProcess2 (svc : Service) (cl : Client) (f : SharedFile) :
    UploadResult × Bool :=
  match uploadFile svc cl f with
  | (.error msg, b) => (errorResult msg, b)
  | (.ok up, b) =>
    if jsTruthyFid up.fileId then
      match up.fileId with
      | some fid =>
        let _fidStr := fidToStr fid
        match processFile2 (svc.processResp 0) with
        | .error msg => (errorResult msg, b)
        | .ok _ =>
          match (pollForResults2 svc.statusResp).1 with
          | .error msg => (errorResult msg, b)
          | .ok res =>
            let res := cleanupResult f.name res
            let res := if jsTruthy up.url then { res with url := up.url } else res
            (res, b)
      | none => (errorResult (jstr "No file ID returned from upload"), b)
    else (errorResult (jstr "No file ID returned from upload"), b)

def fileC1 : SharedFile := ⟨jstr "file:///tmp/a.txt", none, none, some (jstr "hello")⟩

/-- A mocked service that accepts the upload with identifier `fid`,
accepts the trigger at once, and reports completion with extracted
text `T` on the first status query. -/
def immediateService (fid : FileId) (T : JsText) : Service :=
  { uploadResp := .http 200 { success := true, fileId := some fid, status := jstr "uploaded" }
    processResp := fun _ => .http 200 none
    statusResp := fun _ => .http 200 { status := some (jstr "completed"), text := some T } }


/-! ## Helper lemmas about the string model -/

theorem jsplit_ne_nil (sep : Char) (s : JStr) : jsplit sep s ≠ [] := by
  induction s with
  | nil => simp [jsplit]
  | cons c rest ih =>
    simp only [jsplit]
    split
    · simp
    · cases h : jsplit sep rest with
      | nil => exact absurd h ih
      | cons a t => simp

theorem jsplit_no_sep {sep : Char} {s : JStr} (h : sep ∉ s) :
    jsplit sep s = [s] := by
  induction s with
  | nil => rfl
  | cons c rest ih =>
    simp only [List.mem_cons, not_or] at h
    simp only [jsplit, ih h.2]
    split
    · exact absurd (by assumption) (Ne.symm h.1)
    · rfl

theorem jsplit_length_ge_two {sep : Char} {s : JStr} (h : sep ∈ s) :
    2 ≤ (jsplit sep s).length := by
  induction s with
  | nil => simp at h
  | cons c rest ih =>
    simp only [jsplit]
    split
    · have := jsplit_ne_nil sep rest
      cases hr : jsplit sep rest with
      | nil => exact absurd hr this
      | cons a t => simp
    · rename_i hc
      have hmem : sep ∈ rest := by
        rcases List.mem_cons.1 h with h' | h'
        · exact absurd h'.symm hc
        · exact h'
      cases hr : jsplit sep rest with
      | nil => exact absurd hr (jsplit_ne_nil sep rest)
      | cons a t =>
        have := ih hmem
        rw [hr] at this
        simpa using this

theorem getLastD_of_ne_nil {l : List JStr} (h : l ≠ []) (a b : JStr) :
    l.getLastD a = l.getLastD b := by
  cases l with
  | nil => exact absurd rfl h
  | cons x t => rw [List.getLastD_cons, List.getLastD_cons]

/-- The last `sep`-separated component of `z ++ sep :: e` is `e`
whenever `e` itself contains no separator. -/
theorem jlastD_jsplit_append {sep : Char} (z e : JStr) (he : sep ∉ e) :
    jlastD (jsplit sep (z ++ sep :: e)) = e := by
  induction z with
  | nil =>
    simp only [List.nil_append, jsplit, if_pos rfl, jsplit_no_sep he, jlastD]
    rfl
  | cons c z ih =>
    have hmem : sep ∈ z ++ sep :: e := by simp
    simp only [List.cons_append, jsplit]
    split
    · cases hr : jsplit sep (z ++ sep :: e) with
      | nil => exact absurd hr (jsplit_ne_nil _ _)
      | cons a t =>
        rw [hr] at ih
        simp only [jlastD, List.getLastD_cons] at ih ⊢
        exact ih
    · cases hr : jsplit sep (z ++ sep :: e) with
      | nil => exact absurd hr (jsplit_ne_nil _ _)
      | cons a t =>
        have ht : t ≠ [] := by
          have h2 := jsplit_length_ge_two hmem
          rw [hr] at h2
          intro h'; subst h'; simp at h2
        rw [hr] at ih
        simp only [jlastD, List.getLastD_cons] at ih ⊢
        rw [getLastD_of_ne_nil ht (c :: a) a]
        exact ih

theorem lowerChar_dot : lowerChar '.' = '.' := rfl

theorem lowerChar_eq_dot {c : Char} (h : lowerChar c = '.') : c = '.' := by
  unfold lowerChar at h
  split at h <;> first
    | exact absurd h (by decide)
    | exact h

theorem dot_mem_of_mem_jlower {e : JStr} (h : '.' ∈ jlower e) : '.' ∈ e := by
  rcases List.mem_map.1 h with ⟨c, hc, hlc⟩
  rwa [lowerChar_eq_dot hlc] at hc

/-- If the lower-cased uri ends in `'.' :: e` with `e` dot-free, the
uri's last `.`-separated component lower-cases to `e`. -/
theorem extOf_of_lower_suffix {uri p e : JStr} (he : '.' ∉ e)
    (h : jlower uri = p ++ '.' :: e) : extOf uri = e := by
  have hsplit := List.map_eq_append_iff.1 h
  rcases hsplit with ⟨u1, u2, huri, hu1, hu2⟩
  cases u2 with
  | nil => simp at hu2
  | cons c u2' =>
    simp only [List.map_cons, List.cons.injEq] at hu2
    have hc : c = '.' := lowerChar_eq_dot hu2.1
    have hdot : '.' ∉ u2' := by
      intro hm
      exact he (hu2.2 ▸ List.mem_map.2 ⟨'.', hm, lowerChar_dot⟩)
    subst hc
    rw [extOf, huri, jlastD_jsplit_append u1 u2' hdot]
    exact hu2.2

theorem jlower_append_dot (p e : JStr) :
    jlower (p ++ '.' :: e) = jlower p ++ '.' :: jlower e := by
  simp [jlower, lowerChar_dot]

theorem suffix_eq_false_of_pdf_suffix {suf l : JStr}
    (hlen : (jstr ".pdf").length ≤ suf.length) (hne : ¬(jstr ".pdf" <:+ suf))
    (hpdf : jstr ".pdf" <:+ l) : suf.isSuffixOf l = false := by
  by_contra h
  have hs : suf <:+ l :=
    List.isSuffixOf_iff_suffix.1 (Bool.of_not_eq_false h)
  exact hne (List.suffix_of_suffix_length_le hpdf hs hlen)

/-- C9 — for every `SharedFile` with `mimeType` omitted whose uri ends
in `.pdf` in any letter-casing, `prepareFile` resolves the MIME type
to exactly `application/pdf`. -/
theorem c9_pdf_mime (f : SharedFile) (p e : JStr) (hm : f.mimeType = none)
    (hu : f.uri = p ++ '.' :: e) (he : jlower e = jstr "pdf") :
    prepareMime f = jstr "application/pdf" := by
  have hdot : '.' ∉ e := by
    intro hmem
    have h1 : '.' ∈ jlower e := List.mem_map.2 ⟨'.', hmem, lowerChar_dot⟩
    rw [he] at h1
    exact absurd h1 (by decide)
  have hext : extOf f.uri = jstr "pdf" := by
    rw [hu, extOf, jlastD_jsplit_append p e hdot, he]
  have h1 : mimeStep1 f = jstr "application/pdf" := by
    rw [mimeStep1, hm, hext]
    decide
  have h2 : mimeStep2 f = jstr "application/pdf" := by
    rw [mimeStep2, h1]
    decide
  have hpdfsuf : jstr ".pdf" <:+ jlower f.uri := by
    rw [hu, jlower_append_dot, he]
    exact ⟨jlower p, rfl⟩
  have himg : hasImageExt f.uri = false := by
    rw [hasImageExt]
    apply List.any_eq_false.mpr
    intro suf hsuf
    simp only [List.mem_cons, List.not_mem_nil, or_false] at hsuf
    simp only [Bool.not_eq_true]
    rcases hsuf with rfl | rfl | rfl | rfl | rfl | rfl <;>
      (refine suffix_eq_false_of_pdf_suffix ?_ ?_ hpdfsuf <;> decide)
  rw [prepareMime, himg]
  simpa using h2

/-- C9 at a concrete input: `doc.PdF` with no declared MIME type
resolves to `application/pdf`. -/
theorem c9_witness :
    prepareMime ⟨jstr "doc.PdF", none, none, none⟩ = jstr "application/pdf" :=
  c9_pdf_mime ⟨jstr "doc.PdF", none, none, none⟩ (jstr "doc") (jstr "PdF")
    rfl (by decide) (by decide)

/-- C8 — for every `SharedFile` whose uri ends in an image-like
extension (`jpg|jpeg|png|gif|webp|heic`, case-insensitively) but whose
resolved MIME type does not start with `image/`, `prepareFile`
overrides the MIME type to the image type matching the extension. -/
theorem c8_image_mime_override (f : SharedFile)
    (himg : hasImageExt f.uri = true)
    (hmime : (jstr "image/").isPrefixOf (mimeStep2 f) = false) :
    ∃ im, imageExtMime (extOf f.uri) = some im ∧ prepareMime f = im ∧
      (jstr "image/").isPrefixOf im = true := by
  have hext : ∃ e, extOf f.uri = e ∧ imageExtMime e ≠ none ∧ e ≠ [] := by
    have h := himg
    rw [hasImageExt] at h
    rcases List.any_eq_true.1 h with ⟨suf, hsuf, hsufOf⟩
    have hs : suf <:+ jlower f.uri := List.isSuffixOf_iff_suffix.1 hsufOf
    rcases hs with ⟨z, hz⟩
    simp only [List.mem_cons, List.not_mem_nil, or_false] at hsuf
    rcases hsuf with rfl | rfl | rfl | rfl | rfl | rfl
    · exact ⟨jstr "jpg", extOf_of_lower_suffix (by decide) hz.symm, by decide, by decide⟩
    · exact ⟨jstr "jpeg", extOf_of_lower_suffix (by decide) hz.symm, by decide, by decide⟩
    · exact ⟨jstr "png", extOf_of_lower_suffix (by decide) hz.symm, by decide, by decide⟩
    · exact ⟨jstr "gif", extOf_of_lower_suffix (by decide) hz.symm, by decide, by decide⟩
    · exact ⟨jstr "webp", extOf_of_lower_suffix (by decide) hz.symm, by decide, by decide⟩
    · exact ⟨jstr "heic", extOf_of_lower_suffix (by decide) hz.symm, by decide, by decide⟩
  rcases hext with ⟨e, he, hne, hnil⟩
  rcases Option.ne_none_iff_exists'.1 hne with ⟨im, him⟩
  refine ⟨im, by rw [he]; exact him, ?_, ?_⟩
  · simp only [prepareMime, himg, hmime, he, him]
    simp [List.isEmpty_iff, hnil]
  · revert him
    rw [imageExtMime]
    split
    · rintro ⟨rfl⟩; decide
    · split
      · rintro ⟨rfl⟩; decide
      · split
        · rintro ⟨rfl⟩; decide
        · split
          · rintro ⟨rfl⟩; decide
          · split
            · rintro ⟨rfl⟩; decide
            · intro h; exact absurd h (by simp)

/-- C8 at a concrete input: `a.PNG` declared as
`application/octet-stream` is overridden to `image/png`. -/
theorem c8_witness :
    ∃ im, imageExtMime (extOf (jstr "a.PNG")) = some im ∧
      prepareMime ⟨jstr "a.PNG", some (jstr "application/octet-stream"), none, none⟩ = im ∧
      (jstr "image/").isPrefixOf im = true :=
  c8_image_mime_override
    ⟨jstr "a.PNG", some (jstr "application/octet-stream"), none, none⟩
    (by decide) (by decide)

/-- C4 — for every `SharedFile` with no `name`, `prepareFile`
synthesizes `shared-<timestamp>.<ext>` where `<ext>` is the MIME
subtype when a subtype is known, else the source path's extension when
non-empty, else the literal token `file`; in particular, for the input
with empty uri (which contains no `'.'`) and absent MIME type the
extension is the literal token `file`. -/
theorem c4_filename_synthesis (f : SharedFile) (now : Nat)
    (hname : f.name = none) :
    fileNameOf f now = jstr "shared-" ++ natStr now ++ jstr "." ++ extToken f ∧
    (∀ t, subtypeOf f.mimeType = some t → t ≠ [] → extToken f = t) ∧
    (f.mimeType = none → extOf f.uri ≠ [] → extToken f = extOf f.uri) ∧
    (f.mimeType = none → extOf f.uri = [] → extToken f = jstr "file") ∧
    (('.' ∉ ([] : JStr)) ∧
      fileNameOf ⟨[], none, none, none⟩ now =
        jstr "shared-" ++ natStr now ++ jstr ".file") := by
  refine ⟨?_, ?_, ?_, ?_, ?_, ?_⟩
  · rw [fileNameOf, hname]
    rfl
  · intro t ht hne
    rw [extToken, ht]
    simp [jsOr, List.isEmpty_iff, hne]
  · intro hm hne
    rw [extToken, hm]
    simp [subtypeOf, jsOr, jsOrS, List.isEmpty_iff, hne]
  · intro hm he
    rw [extToken, hm]
    simp [subtypeOf, jsOr, jsOrS, he]
  · decide
  · have h1 : extToken ⟨[], none, none, none⟩ = jstr "file" := by decide
    simp only [fileNameOf, jsOr, h1]
    rw [List.append_assoc]
    congr 1

/-- C4 at a concrete input: a nameless text share with a MIME subtype
gets `shared-<ts>.<subtype>`. -/
theorem c4_witness :
    fileNameOf ⟨jstr "note.md", some (jstr "text/markdown"), none, some (jstr "hi")⟩ 7 =
      jstr "shared-" ++ natStr 7 ++ jstr "." ++
        extToken ⟨jstr "note.md", some (jstr "text/markdown"), none, some (jstr "hi")⟩ :=
  (c4_filename_synthesis
    ⟨jstr "note.md", some (jstr "text/markdown"), none, some (jstr "hi")⟩ 7 rfl).1

theorem processFileGo_attempts_le (resp : Nat → TriggerResp) (rd : Nat) :
    ∀ fuel att delays,
      (processFileGo resp rd fuel att delays).attempts ≤ att + fuel := by
  intro fuel
  induction fuel with
  | zero => intro att delays; simp [processFileGo]
  | succ n ih =>
    intro att delays
    simp only [processFileGo]
    cases h : resp att with
    | net msg =>
      dsimp only
      by_cases hf : 0 < n
      · rw [if_pos hf]
        have := ih (att + 1) (delays ++ [rd * 2 ^ att])
        omega
      · rw [if_neg hf]; simp
    | http status errMsg =>
      dsimp only
      by_cases h2 : 200 ≤ status ∧ status < 300
      · rw [if_pos h2]; simp
      · rw [if_neg h2]
        by_cases h3 : 500 ≤ status ∨ status = 429
        · rw [if_pos h3]
          by_cases hf : 0 < n
          · rw [if_pos hf]
            have := ih (att + 1) (delays ++ [rd * 2 ^ att])
            omega
          · rw [if_neg hf]; simp
        · rw [if_neg h3]
          by_cases hf : 0 < n
          · rw [if_pos hf]
            have := ih (att + 1) (delays ++ [rd * 2 ^ att])
            omega
          · rw [if_neg hf]; simp

theorem delays_append_inv {delays : List Nat} {rd att : Nat}
    (hlen : delays.length = att)
    (hinv : ∀ i d, delays[i]? = some d → d = rd * 2 ^ i) :
    ∀ i d, (delays ++ [rd * 2 ^ att])[i]? = some d → d = rd * 2 ^ i := by
  intro i d h
  rcases Nat.lt_trichotomy i att with hi | heq | hi
  · rw [List.getElem?_append_left (by omega)] at h
    exact hinv i d h
  · subst heq
    rw [← hlen, List.getElem?_concat_length] at h
    injection h with h'
    rw [← h', hlen]
  · rw [List.getElem?_eq_none (by simp; omega)] at h
    cases h

theorem processFileGo_delays (resp : Nat → TriggerResp) (rd : Nat) :
    ∀ fuel att delays, delays.length = att →
      (∀ i d, delays[i]? = some d → d = rd * 2 ^ i) →
      ∀ i d, (processFileGo resp rd fuel att delays).delays[i]? = some d →
        d = rd * 2 ^ i := by
  intro fuel
  induction fuel with
  | zero => intro att delays _ hinv; simp only [processFileGo]; exact hinv
  | succ n ih =>
    intro att delays hlen hinv
    simp only [processFileGo]
    cases h : resp att with
    | net msg =>
      dsimp only
      by_cases hf : 0 < n
      · rw [if_pos hf]
        exact ih (att + 1) _ (by simp [hlen]) (delays_append_inv hlen hinv)
      · rw [if_neg hf]; exact hinv
    | http status errMsg =>
      dsimp only
      by_cases h2 : 200 ≤ status ∧ status < 300
      · rw [if_pos h2]; exact hinv
      · rw [if_neg h2]
        by_cases h3 : 500 ≤ status ∨ status = 429
        · rw [if_pos h3]
          by_cases hf : 0 < n
          · rw [if_pos hf]
            exact ih (att + 1) _ (by simp [hlen]) (delays_append_inv hlen hinv)
          · rw [if_neg hf]; exact hinv
        · rw [if_neg h3]
          by_cases hf : 0 < n
          · rw [if_pos hf]
            exact ih (att + 1) _ (by simp [hlen]) (delays_append_inv hlen hinv)
          · rw [if_neg hf]; exact hinv

/-- A trigger response the source's retry condition applies to:
a network error, or HTTP 5xx / 429. -/
def isRetryable : TriggerResp → Prop
  | .net _ => True
  | .http status _ => 500 ≤ status ∨ status = 429

theorem processFileGo_succ_step (resp : Nat → TriggerResp) (rd fuel att : Nat)
    (delays : List Nat) (hr : isRetryable (resp att)) (hf : 0 < fuel) :
    processFileGo resp rd (fuel + 1) att delays =
      processFileGo resp rd fuel (att + 1) (delays ++ [rd * 2 ^ att]) := by
  simp only [processFileGo]
  cases h : resp att with
  | net msg => dsimp only; rw [if_pos hf]
  | http status errMsg =>
    rw [h] at hr
    simp only [isRetryable] at hr
    dsimp only
    rw [if_neg (by omega), if_pos hr, if_pos hf]

theorem processFileGo_last (resp : Nat → TriggerResp) (rd att : Nat)
    (delays : List Nat) (hr : isRetryable (resp att)) :
    (processFileGo resp rd 1 att delays).attempts = att + 1 ∧
    (processFileGo resp rd 1 att delays).delays = delays := by
  simp only [processFileGo]
  cases h : resp att with
  | net msg =>
    dsimp only
    rw [if_neg (lt_irrefl 0)]
    exact ⟨rfl, rfl⟩
  | http status errMsg =>
    rw [h] at hr
    simp only [isRetryable] at hr
    dsimp only
    rw [if_neg (by omega), if_pos hr, if_neg (lt_irrefl 0)]
    exact ⟨rfl, rfl⟩

/-- C5 — the Trigger stage makes at most `maxRetries` attempts, every
backoff delay it sleeps equals `retryDelay * 2^(n-1)` before attempt
`n+1` (the delay at list index `i` is `retryDelay * 2^i`), and under
persistently retryable failures with `maxRetries = 3`,
`retryDelay = 1000` it makes exactly 3 attempts with delays
1000 and 2000 ms, totalling 3000 ms. -/
theorem c5_trigger_retry_bound :
    (∀ (resp : Nat → TriggerResp) (maxRetries rd : Nat),
      (processFileRun resp maxRetries rd).attempts ≤ maxRetries ∧
      ∀ i d, (processFileRun resp maxRetries rd).delays[i]? = some d →
        d = rd * 2 ^ i) ∧
    (∀ resp : Nat → TriggerResp, (∀ n, isRetryable (resp n)) →
      (processFileRun resp 3 1000).attempts = 3 ∧
      (processFileRun resp 3 1000).delays = [1000, 2000] ∧
      (processFileRun resp 3 1000).delays.sum = 3000) := by
  constructor
  · intro resp maxR rd
    refine ⟨?_, ?_⟩
    · have h := processFileGo_attempts_le resp rd maxR 0 []
      simpa [processFileRun] using h
    · intro i d h
      refine processFileGo_delays resp rd maxR 0 [] rfl ?_ i d h
      intro j e hj
      simp at hj
  · intro resp h
    have e : processFileGo resp 1000 3 0 [] =
        processFileGo resp 1000 1 2 [1000, 2000] := by
      calc processFileGo resp 1000 3 0 []
          = processFileGo resp 1000 2 (0 + 1) ([] ++ [1000 * 2 ^ 0]) :=
            processFileGo_succ_step resp 1000 2 0 [] (h 0) (by omega)
        _ = processFileGo resp 1000 1 (1 + 1)
              (([] ++ [1000 * 2 ^ 0]) ++ [1000 * 2 ^ 1]) := by
            have := processFileGo_succ_step resp 1000 1 1
              ([] ++ [1000 * 2 ^ 0]) (h 1) (by omega)
            simpa using this
        _ = processFileGo resp 1000 1 2 [1000, 2000] := by norm_num
    have efin : processFileRun resp 3 1000 =
        processFileGo resp 1000 1 2 [1000, 2000] := by
      rw [processFileRun]; exact e
    have last := processFileGo_last resp 1000 2 [1000, 2000] (h 2)
    refine ⟨?_, ?_, ?_⟩ <;> rw [efin]
    · rw [last.1]
    · exact last.2
    · rw [last.2]; decide

/-- C5 at a concrete input: a trigger endpoint answering 500 on every
attempt, with `maxRetries = 3` and `retryDelay = 1000`. -/
theorem c5_witness :
    (processFileRun (fun _ => .http 500 none) 3 1000).attempts = 3 ∧
    (processFileRun (fun _ => .http 500 none) 3 1000).delays = [1000, 2000] ∧
    (processFileRun (fun _ => .http 500 none) 3 1000).delays.sum = 3000 :=
  c5_trigger_retry_bound.2 (fun _ => .http 500 none)
    (fun _ => Or.inl (by omega))

/-- C2 — evaluating the first `processFile` against a trigger endpoint
that answers HTTP 400 (a non-retryable status, per the source's own
comment) with message `Bad request` on every attempt, with
`maxRetries = 3`, `retryDelay = 1000`: because the `throw` for
non-retryable statuses sits inside the `try`, the loop's own `catch`
recaptures it and retries, so the stage makes 3 attempts and sleeps
1000 ms and 2000 ms before finally surfacing the error, instead of
raising immediately with no further attempt. -/
theorem c2_behavior :
    processFileRun (fun _ => .http 400 (some (jstr "Bad request"))) 3 1000 =
      ⟨3, [1000, 2000], .error (jstr "Bad request")⟩ := rfl

theorem pollForResults1Go_nonterminal (stat : Nat → PollResp) (fid : FileId)
    (body : StatusBody) (hstat : ∀ n, stat n = .http 200 body)
    (herr : body.error = none) (hc : body.status ≠ some (jstr "completed"))
    (he : body.status ≠ some (jstr "error")) :
    ∀ fuel q, pollForResults1Go stat fid fuel q =
      ({ status := .error, error := some (jstr "Processing timeout")
         fileId := some fid }, q + fuel) := by
  intro fuel
  induction fuel with
  | zero => intro q; simp [pollForResults1Go]
  | succ n ih =>
    intro q
    simp only [pollForResults1Go, hstat q]
    rw [if_pos (by omega)]
    rw [if_neg (by simp [herr, jsTruthy])]
    rw [if_neg hc, if_neg he, ih (q + 1)]
    congr 1
    omega

theorem pollForResults2Go_nonterminal (stat : Nat → PollResp)
    (body : StatusBody) (hstat : ∀ n, stat n = .http 200 body)
    (hc : body.status ≠ some (jstr "completed"))
    (he : body.status ≠ some (jstr "error")) :
    ∀ fuel q, pollForResults2Go stat fuel q =
      (.ok { status := .error
             error := some (jstr "Timed out waiting for processing results") },
       q + fuel) := by
  intro fuel
  induction fuel with
  | zero => intro q; simp [pollForResults2Go]
  | succ n ih =>
    intro q
    simp only [pollForResults2Go, hstat q]
    rw [if_pos (by omega)]
    rw [if_neg (not_or.mpr ⟨hc, he⟩), ih (q + 1)]
    congr 1
    omega

/-- C6 — against a status endpoint that always answers 2xx with a
non-terminal status (such as `processing`) and no error field, both
pollers terminate after exactly `maxAttempts = 30` status queries and
return an error-status result carrying their processing-timeout
message; neither loops indefinitely. -/
theorem c6_poller_termination (stat : Nat → PollResp) (fid : FileId)
    (body : StatusBody) (hstat : ∀ n, stat n = .http 200 body)
    (herr : body.error = none) (hc : body.status ≠ some (jstr "completed"))
    (he : body.status ≠ some (jstr "error")) :
    pollForResults1 stat fid =
      ({ status := .error, error := some (jstr "Processing timeout")
         fileId := some fid }, 30) ∧
    pollForResults2 stat =
      (.ok { status := .error
             error := some (jstr "Timed out waiting for processing results") },
       30) := by
  constructor
  · rw [pollForResults1, pollForResults1Go_nonterminal stat fid body hstat herr hc he 30 0]
  · rw [pollForResults2, pollForResults2Go_nonterminal stat body hstat hc he 30 0]

/-- C6 at a concrete input: an endpoint stuck at `processing`. -/
theorem c6_witness :
    pollForResults1 (fun _ => .http 200 ⟨some (jstr "processing"), none, none, none⟩)
        (.num 7) =
      ({ status := .error, error := some (jstr "Processing timeout")
         fileId := some (.num 7) }, 30) ∧
    pollForResults2 (fun _ => .http 200 ⟨some (jstr "processing"), none, none, none⟩) =
      (.ok { status := .error
             error := some (jstr "Timed out waiting for processing results") },
       30) :=
  c6_poller_termination _ (.num 7) ⟨some (jstr "processing"), none, none, none⟩
    (fun _ => rfl) rfl (by decide) (by decide)

/-- C10 — in the numeric-id poller, whenever a 2xx status response
body carries a truthy `error` field, the poll loop returns an
error-status result carrying that message at once — even when the same
body's `status` field is `completed` (`pollForResults1` is this loop
started at `fuel = 30`, `q = 0`). -/
theorem c10_error_precedence (stat : Nat → PollResp) (fid : FileId)
    (body : StatusBody) (fuel q : Nat) (s : JStr)
    (hq : stat q = .http 200 body) (hs : body.error = some s) (hne : s ≠ [])
    (hf : 0 < fuel) :
    pollForResults1Go stat fid fuel q =
      ({ status := .error, error := some s, fileId := some fid }, q + 1) := by
  cases fuel with
  | zero => omega
  | succ n =>
    simp only [pollForResults1Go, hq]
    rw [if_pos (by omega)]
    rw [if_pos (by simp [hs, jsTruthy, List.isEmpty_iff, hne])]
    rw [hs]

/-- C10 at a concrete input: a body with `status: completed` and
`error: "boom"` yields the error result on the first query. -/
theorem c10_witness :
    pollForResults1Go
      (fun _ => .http 200
        ⟨some (jstr "completed"), some (.str (jstr "x")), some (jstr "boom"), none⟩)
      (.num 7) 30 0 =
      ({ status := .error, error := some (jstr "boom"), fileId := some (.num 7) }, 1) :=
  c10_error_precedence _ (.num 7)
    ⟨some (jstr "completed"), some (.str (jstr "x")), some (jstr "boom"), none⟩
    30 0 (jstr "boom") rfl rfl (by decide) (by omega)

/-- The status oracle of the 404-tolerance scenario: HTTP 404 on the
first two queries, then 2xx `completed`. -/
def stat404 (b404 bC : StatusBody) : Nat → PollResp :=
  fun n => if n < 2 then .http 404 b404 else .http 200 bC

/-- C3 as stated is false for the numeric-id poller: with the status
endpoint answering 404 twice and then `completed`, the first
`pollForResults` terminates on the very first 404 with an error-status
result (no 404 tolerance in this variant), rather than returning the
completed result. -/
theorem c3_counterexample :
    pollForResults1
      (stat404 ⟨none, none, some (jstr "File not found"), none⟩
        ⟨some (jstr "completed"), some (.str (jstr "T")), none, none⟩)
      (.num 5) =
      ({ status := .error, error := some (jstr "File not found") }, 1) := rfl

/-- C3 amended — the 404 tolerance holds for the string-id poller:
with 404 on the first two queries and `completed` on the third, the
second `pollForResults` returns the completed result (no error) after
exactly 3 queries. -/
theorem poll2_step_404 (stat : Nat → PollResp) (q fuel : Nat)
    (b404 : StatusBody) (hq : stat q = .http 404 b404) :
    pollForResults2Go stat (fuel + 1) q = pollForResults2Go stat fuel (q + 1) := by
  simp only [pollForResults2Go, hq]
  rw [if_neg (by omega)]
  simp

theorem poll2_done_completed (stat : Nat → PollResp) (q fuel : Nat)
    (bC : StatusBody) (hq : stat q = .http 200 bC)
    (hC : bC.status = some (jstr "completed")) :
    pollForResults2Go stat (fuel + 1) q = (.ok (resultOfBody bC), q + 1) := by
  simp only [pollForResults2Go, hq]
  rw [if_pos (by omega), if_pos (Or.inl hC)]

theorem c3_amended (b404 bC : StatusBody)
    (hC : bC.status = some (jstr "completed")) :
    pollForResults2 (stat404 b404 bC) = (.ok (resultOfBody bC), 3) := by
  rw [pollForResults2]
  calc pollForResults2Go (stat404 b404 bC) 30 0
      = pollForResults2Go (stat404 b404 bC) 29 1 :=
        poll2_step_404 _ 0 29 b404 (by simp [stat404])
    _ = pollForResults2Go (stat404 b404 bC) 28 2 :=
        poll2_step_404 _ 1 28 b404 (by simp [stat404])
    _ = (.ok (resultOfBody bC), 3) :=
        poll2_done_completed _ 2 27 bC (by simp [stat404]) hC

/-- C3 amended, at a concrete input. -/
theorem c3_witness :
    pollForResults2
      (stat404 ⟨none, none, some (jstr "File not found"), none⟩
        ⟨some (jstr "completed"), some (.str (jstr "T")), none, none⟩) =
      (.ok (resultOfBody
        ⟨some (jstr "completed"), some (.str (jstr "T")), none, none⟩), 3) :=
  c3_amended ⟨none, none, some (jstr "File not found"), none⟩
    ⟨some (jstr "completed"), some (.str (jstr "T")), none, none⟩ rfl

theorem poll1_done_completed (stat : Nat → PollResp) (fid : FileId)
    (fuel q : Nat) (body : StatusBody) (hq : stat q = .http 200 body)
    (herr : body.error = none) (hC : body.status = some (jstr "completed"))
    (hf : 0 < fuel) :
    pollForResults1Go stat fid fuel q =
      ({ status := .completed, text := body.text, fileId := some fid
         url := body.url }, q + 1) := by
  cases fuel with
  | zero => omega
  | succ n =>
    simp only [pollForResults1Go, hq]
    rw [if_pos (by omega)]
    rw [if_neg (by simp [herr, jsTruthy])]
    rw [if_pos hC]

/-- C1 as stated is false: for
`SharedFile{uri: "file:///tmp/a.txt", text: "hello"}` with no declared
MIME type, the extension table maps `txt` to `application/octet-stream`
(not a text MIME), so the text fast path is NOT taken: the run goes
through the binary base64-encode upload path (second component `true`),
and the resulting text is whatever the service's status endpoint
reports (`EXTRACTED` here), not the shared `"hello"`. -/
theorem c1_counterexample :
    handleFileProcess1
      (immediateService (.str (jstr "srv-1")) (.str (jstr "EXTRACTED")))
      ⟨0, fun _ => [], 3, 1000⟩ fileC1 =
      ({ status := .completed, text := some (.str (jstr "EXTRACTED"))
         fileId := some (.str (jstr "srv-1")) }, true) := rfl

/-- C1 amended — the same pipeline run yields a completed result whose
`fileId` is the service-assigned identifier and whose text is the
service's extracted text, but via the binary upload path (the boolean
records that the base64 encode ran); the fast path would require the
resolved MIME type to be `text/plain` or `text/markdown`, which
extension inference never produces for `.txt`. -/
theorem c1_amended (now : Nat) (rb : JStr → JStr) (fid : FileId) (T : JsText)
    (maxR rd : Nat) (hfid : jsTruthyFid (some fid) = true) (hmr : 0 < maxR) :
    handleFileProcess1 (immediateService fid T) ⟨now, rb, maxR, rd⟩ fileC1 =
      ({ status := .completed, text := some T, fileId := some fid }, true) := by
  obtain ⟨k, rfl⟩ : ∃ k, maxR = k + 1 := ⟨maxR - 1, by omega⟩
  have hup : uploadFile (immediateService fid T) ⟨now, rb, k + 1, rd⟩ fileC1 =
      (.ok { success := true, fileId := some fid, status := jstr "uploaded" },
       true) := rfl
  have hproc :
      (processFileRun (immediateService fid T).processResp (k + 1) rd).outcome =
        .ok () := by
    simp only [processFileRun, processFileGo, immediateService]
    rw [if_pos (by omega)]
  have hpoll : pollForResults1 (immediateService fid T).statusResp fid =
      ({ status := .completed, text := some T, fileId := some fid }, 1) := by
    rw [pollForResults1]
    exact poll1_done_completed _ fid 30 0
      { status := some (jstr "completed"), text := some T } rfl rfl rfl (by omega)
  simp only [handleFileProcess1, hup, hfid, hproc, hpoll, jsTruthy]
  simp

/-- C1 amended, at a concrete input. -/
theorem c1_witness :
    handleFileProcess1 (immediateService (.num 42) (.str (jstr "hello")))
      ⟨0, fun _ => [], 3, 1000⟩ fileC1 =
      ({ status := .completed, text := some (.str (jstr "hello"))
         fileId := some (.num 42) }, true) :=
  c1_amended 0 (fun _ => []) (.num 42) (.str (jstr "hello")) 3 1000
    (by decide) (by omega)

/-- C7 as stated is false: when the wiki-style and the standard
reference sit on the same line, the leftmost match of the lazy
standard-reference pattern starts at the wiki reference's `![`, spans
`![[photo.png]] ![alt](photo.png)` whole, and the replacement removes
the wiki-style reference too — the cleaned text is empty rather than
keeping `![[photo.png]]`. -/
theorem c7_counterexample :
    cleanupResult (some (jstr "photo.png"))
      { status := .completed
        text := some (.str (jstr "![[photo.png]] ![alt](photo.png)")) } =
      { status := .completed, text := some (.str []) } := rfl

/-- C7 amended — when the wiki-style and standard references occur on
separate lines (here `![[photo.png]]`, a blank-line run, then
`![alt](photo.png)`), the post-processing removes the standard-style
reference, collapses the newline run, trims, and leaves exactly the
wiki-style reference; with both references on one line a single
standard-pattern match can span and remove the wiki-style reference
as well. -/
theorem c7_amended :
    cleanupResult (some (jstr "photo.png"))
      { status := .completed
        text := some (.str (jstr "![[photo.png]]\n\n\n\n![alt](photo.png)")) } =
      { status := .completed, text := some (.str (jstr "![[photo.png]]")) } := rfl
